import Mathlib

/-!
Shallow embedding of the ShotAuto core store (`src-tauri/src/db.rs`).

Modelling conventions:
* The SQLite database is a `DbState`: each table is a list of rows, in
  insertion order; `AUTOINCREMENT` columns are modelled by per-table counters.
* Timestamps cross the boundary as canonical, lexically sortable text
  (RFC 3339); their ordering is all the queries use, so a timestamp is
  modelled by a `Nat` (order-isomorphic to the canonical text form).
* Rust `u64::to_string` / `str::parse::<u64>` are modelled by `natToString` /
  `parseU64` (decimal digits, range-checked against `2^64`).
* Each Rust method of `Database` becomes a Lean function on `DbState`;
  read-only methods (pure `SELECT`) return the state unchanged, writers
  return the updated state.  Connection-level I/O failures are out of scope;
  no modelled operation has any other error path in the source.
-/

/-- Job status enum (`JobStatus` in `db.rs`). -/
inductive JobStatus where
  | Pending
  | Generating
  | Rendering
  | Done
  | Failed
deriving DecidableEq, Repr

/-- Model of `JobStatus::as_str`: canonical stored text of each status. -/
def JobStatus.as_str : JobStatus → String
  | .Pending => "pending"
  | .Generating => "generating"
  | .Rendering => "rendering"
  | .Done => "done"
  | .Failed => "failed"

/-- Model of `JobStatus::from_str`: decode stored text; any unknown string falls back
to `Pending` (the `_` arm of the Rust `match`). -/
def JobStatus.from_str (s : String) : JobStatus :=
  if s = "pending" then .Pending
  else if s = "generating" then .Generating
  else if s = "rendering" then .Rendering
  else if s = "done" then .Done
  else if s = "failed" then .Failed
  else .Pending

/-- Row of the `trends` table. -/
structure TrendRow where
  id : Int
  video_id : String
  title : String
  channel : Option String
  views : Option Int
  category : Option String
  fetched_at : Nat
deriving DecidableEq, Repr

/-- Row of the `jobs` table.  `status` is stored as text (the schema CHECK
constrains writers to the five canonical strings, and every write in the
source goes through `JobStatus.as_str`). -/
structure JobRow where
  id : Int
  trend_id : Int
  status : String
  priority : Int
  retry_count : Int
  error_msg : Option String
  created_at : Nat
  started_at : Option Nat
  finished_at : Option Nat
deriving DecidableEq, Repr

/-- API-level `Trend` struct (`db.rs`). -/
structure Trend where
  id : Option Int
  video_id : String
  title : String
  channel : Option String
  views : Option Int
  category : Option String
  fetched_at : Nat
deriving DecidableEq, Repr

/-- API-level `Job` struct (`db.rs`). -/
structure Job where
  id : Option Int
  trend_id : Int
  status : JobStatus
  priority : Int
  retry_count : Int
  error_msg : Option String
  created_at : Nat
  started_at : Option Nat
  finished_at : Option Nat
deriving DecidableEq, Repr

/-- API-level `Config` struct (`db.rs`). -/
structure Config where
  youtube_api_key : Option String
  telegram_bot_token : Option String
  telegram_chat_id : Option String
  ollama_endpoint : String
  poll_interval_secs : Nat
deriving DecidableEq, Repr

/-- Model of `Config::default()`. -/
def Config.default : Config :=
  { youtube_api_key := none
    telegram_bot_token := none
    telegram_chat_id := none
    ollama_endpoint := "http://localhost:11434"
    poll_interval_secs := 300 }

/-- The whole SQLite store: one list of rows per table (in insertion order),
plus the `AUTOINCREMENT` counters and `last_insert_rowid`.  The `shorts` and
`metrics` tables are never read or written by the operations under study and
are omitted. -/
structure DbState where
  config : List (String × String)
  trends : List TrendRow
  jobs : List JobRow
  next_trend_id : Int
  next_job_id : Int
  last_insert_rowid : Int
deriving DecidableEq, Repr

/-- A freshly bootstrapped store (schema created, all tables empty). -/
def DbState.fresh : DbState :=
  { config := [], trends := [], jobs := [],
    next_trend_id := 1, next_job_id := 1, last_insert_rowid := 0 }

/-- Decimal rendering of a natural number: model of Rust `u64::to_string`.
`Nat.digits` is little-endian, so the printed string is its reversal. -/
def natToString (n : Nat) : String :=
  if n = 0 then "0"
  else String.mk (((Nat.digits 10 n).reverse).map (fun d => Char.ofNat (48 + d)))

/-- Decode one ASCII digit. -/
def charDigit (c : Char) : Bool :=
  48 ≤ c.toNat && c.toNat ≤ 57

/-- Parse a decimal digit string: model of Rust `str::parse::<u64>` (minus
the optional sign, which no writer in the source ever produces).  Fails on
the empty string, on any non-digit character, and on overflow past `2^64`. -/
def parseU64 (s : String) : Option Nat :=
  if s.data ≠ [] ∧ s.data.all charDigit then
    if s.data.foldl (fun acc c => 10 * acc + (c.toNat - 48)) 0 < 2 ^ 64 then
      some (s.data.foldl (fun acc c => 10 * acc + (c.toNat - 48)) 0)
    else none
  else none

namespace Database

/-- Model of `Database::get_config`: `SELECT value FROM config WHERE key = ?`. -/
def get_config (s : DbState) (key : String) : Option String :=
  (s.config.find? (fun kv => kv.1 == key)).map (fun kv => kv.2)

/-- Model of `Database::set_config`: `INSERT OR REPLACE INTO config`.  The table is
keyed by `key` (primary key), so replacing is: drop any row with this key,
add the new one; row order is invisible to `get_config` as keys stay unique. -/
def set_config (s : DbState) (key value : String) : DbState :=
  { s with config := (key, value) :: s.config.filter (fun kv => kv.1 ≠ key) }

/-- Model of `Database::load_config`: read every recognized key, substituting the
documented default when the key is missing; a poll-interval value that fails
to parse also falls back to the default (`.and_then(|s| s.parse().ok())
.unwrap_or(300)`). -/
def load_config (s : DbState) : Config :=
  { youtube_api_key := get_config s "youtube_api_key"
    telegram_bot_token := get_config s "telegram_bot_token"
    telegram_chat_id := get_config s "telegram_chat_id"
    ollama_endpoint := (get_config s "ollama_endpoint").getD "http://localhost:11434"
    poll_interval_secs := ((get_config s "poll_interval_secs").bind parseU64).getD 300 }

/-- One `if let Some(x) = field { self.set_config(key, x)?; }` block of
`Database::save_config`: write the key only when the field is present. -/
def set_config_opt (s : DbState) (key : String) (o : Option String) : DbState :=
  match o with
  | some v => set_config s key v
  | none => s

/-- Model of `Database::save_config`: write the three optional fields only when
present, then always write the endpoint and the poll interval. -/
def save_config (s : DbState) (c : Config) : DbState :=
  set_config
    (set_config
      (set_config_opt
        (set_config_opt
          (set_config_opt s "youtube_api_key" c.youtube_api_key)
          "telegram_bot_token" c.telegram_bot_token)
        "telegram_chat_id" c.telegram_chat_id)
      "ollama_endpoint" c.ollama_endpoint)
    "poll_interval_secs" (natToString c.poll_interval_secs)

/-- Row built by `Database::insert_trend` for a fresh insertion. -/
def trendRowOf (id : Int) (t : Trend) : TrendRow :=
  { id := id, video_id := t.video_id, title := t.title,
    channel := t.channel, views := t.views, category := t.category,
    fetched_at := t.fetched_at }

/-- Model of `Database::insert_trend`: `INSERT OR IGNORE INTO trends ...` —
`video_id` is `UNIQUE`, so when a row with the same `video_id` already
exists the statement is ignored (no error, no change, `last_insert_rowid`
left stale); otherwise a fresh row is appended. -/
def insert_trend (s : DbState) (t : Trend) : Int × DbState :=
  if s.trends.any (fun r => r.video_id == t.video_id) then
    (s.last_insert_rowid, s)
  else
    (s.next_trend_id,
     { s with trends := s.trends ++ [trendRowOf s.next_trend_id t],
              next_trend_id := s.next_trend_id + 1,
              last_insert_rowid := s.next_trend_id })

/-- Model of `Database::get_trend_by_video_id`: `SELECT ... WHERE video_id = ?`. -/
def get_trend_by_video_id (s : DbState) (video_id : String) : Option Trend :=
  (s.trends.find? (fun r => r.video_id == video_id)).map (fun r =>
    { id := some r.id, video_id := r.video_id, title := r.title,
      channel := r.channel, views := r.views, category := r.category,
      fetched_at := r.fetched_at })

/-- Model of `Database::create_job`: insert a new row with status `'pending'`,
the given priority, and `created_at` stamped to now. -/
def create_job (s : DbState) (trend_id : Int) (priority : Int)
    (now : Nat) : Int × DbState :=
  let id := s.next_job_id
  let row : JobRow :=
    { id := id, trend_id := trend_id, status := "pending",
      priority := priority, retry_count := 0, error_msg := none,
      created_at := now, started_at := none, finished_at := none }
  (id, { s with jobs := s.jobs ++ [row],
                next_job_id := id + 1, last_insert_rowid := id })

/-- Decode a `jobs` row into the API-level `Job` (the row-to-struct code in
`get_next_pending_job`): `id` wrapped in `Some`, status decoded leniently. -/
def rowToJob (r : JobRow) : Job :=
  { id := some r.id, trend_id := r.trend_id,
    status := JobStatus.from_str r.status, priority := r.priority,
    retry_count := r.retry_count, error_msg := r.error_msg,
    created_at := r.created_at, started_at := r.started_at,
    finished_at := r.finished_at }

/-- Decode a `trends` row into the API-level `Trend`. -/
def rowToTrend (r : TrendRow) : Trend :=
  { id := some r.id, video_id := r.video_id, title := r.title,
    channel := r.channel, views := r.views, category := r.category,
    fetched_at := r.fetched_at }

/-- The strict ordering used by the dequeue query's
`ORDER BY j.priority DESC, j.created_at ASC`: `a` sorts strictly before
`b` when it has higher priority, or equal priority and earlier creation. -/
def jobBefore (a b : JobRow) : Prop :=
  b.priority < a.priority ∨ (a.priority = b.priority ∧ a.created_at < b.created_at)

instance (a b : JobRow) : Decidable (jobBefore a b) :=
  inferInstanceAs (Decidable (_ ∨ _))

/-- One step of `ORDER BY ... LIMIT 1`: keep the better of the best-so-far
and the next joined row (on a full tie, which SQL leaves unspecified, keep
the earlier row of the scan). -/
def chooseBetter (acc : Option (JobRow × TrendRow)) (x : JobRow × TrendRow) :
    Option (JobRow × TrendRow) :=
  match acc with
  | none => some x
  | some b => if jobBefore x.1 b.1 then some x else some b

/-- Model of `ORDER BY j.priority DESC, j.created_at ASC LIMIT 1` over the joined
candidate rows. -/
def orderLimit1 (l : List (JobRow × TrendRow)) : Option (JobRow × TrendRow) :=
  l.foldl chooseBetter none

/-- The dequeue query's `FROM jobs j JOIN trends t ON j.trend_id = t.id
WHERE j.status = 'pending'`: pending rows paired with their trend
(`trends.id` is the primary key, so at most one trend matches). -/
def pendingJoined (s : DbState) : List (JobRow × TrendRow) :=
  (s.jobs.filter (fun j => j.status == "pending")).filterMap
    (fun j => (s.trends.find? (fun t => t.id == j.trend_id)).map (fun t => (j, t)))

/-- Model of `Database::get_next_pending_job`: a single `SELECT` (no write), so the
returned state is the input state. -/
def get_next_pending_job (s : DbState) :
    Option (Job × Trend) × DbState :=
  ((orderLimit1 (pendingJoined s)).map (fun p => (rowToJob p.1, rowToTrend p.2)), s)

/-- Model of `Database::update_job_status`: one `UPDATE` whose column list depends on
the target status — `generating`/`rendering` also stamp `started_at`;
`done`/`failed` also stamp `finished_at` and store the given error message;
the remaining target (`pending`, the `_` arm) touches only `status`.
`now` is the caller-observed current time (`Utc::now().to_rfc3339()`);
the `WHERE id = ?` clause selects the affected rows. -/
def update_job_status (s : DbState) (job_id : Int) (status : JobStatus)
    (error_msg : Option String) (now : Nat) : DbState :=
  match status with
  | .Generating | .Rendering =>
    { s with jobs := s.jobs.map (fun r =>
        if r.id == job_id then
          { r with status := status.as_str, started_at := some now }
        else r) }
  | .Done | .Failed =>
    { s with jobs := s.jobs.map (fun r =>
        if r.id == job_id then
          { r with status := status.as_str, finished_at := some now,
                   error_msg := error_msg }
        else r) }
  | .Pending =>
    { s with jobs := s.jobs.map (fun r =>
        if r.id == job_id then { r with status := status.as_str } else r) }

end Database

/-! ### Concrete fixtures (used to instantiate the theorems) -/

/-- A sample stored trend. -/
def sampleTrendRow : TrendRow :=
  { id := 1, video_id := "v1", title := "first title", channel := none,
    views := some 10, category := none, fetched_at := 0 }

/-- A pending job of priority 1. -/
def sampleJobRow : JobRow :=
  { id := 1, trend_id := 1, status := "pending", priority := 1,
    retry_count := 0, error_msg := none, created_at := 5,
    started_at := none, finished_at := none }

/-- A pending job of priority 2 (created later). -/
def sampleJobRow2 : JobRow :=
  { id := 2, trend_id := 1, status := "pending", priority := 2,
    retry_count := 0, error_msg := none, created_at := 9,
    started_at := none, finished_at := none }

/-- A finished job. -/
def sampleDoneRow : JobRow :=
  { id := 3, trend_id := 1, status := "done", priority := 0,
    retry_count := 0, error_msg := none, created_at := 1,
    started_at := some 2, finished_at := some 3 }

/-- A sample populated store. -/
def sampleDb : DbState :=
  { config := [], trends := [sampleTrendRow],
    jobs := [sampleJobRow, sampleJobRow2, sampleDoneRow],
    next_trend_id := 2, next_job_id := 4, last_insert_rowid := 3 }

/-- A store whose poll-interval key holds unparseable text. -/
def badPollDb : DbState :=
  { DbState.fresh with config := [("poll_interval_secs", "oops")] }

/-- A sample config with one optional field present and two absent. -/
def sampleConfig : Config :=
  { youtube_api_key := some "KEY", telegram_bot_token := none,
    telegram_chat_id := none, ollama_endpoint := "http://example:1234",
    poll_interval_secs := 60 }

/-- A sample trend to insert. -/
def sampleTrend : Trend :=
  { id := none, video_id := "v1", title := "first title", channel := none,
    views := some 10, category := none, fetched_at := 0 }

/-- A second trend with the same `video_id` but a different title. -/
def sampleTrend2 : Trend :=
  { id := none, video_id := "v1", title := "second title", channel := none,
    views := none, category := some "news", fetched_at := 7 }

/-! ### Helper lemmas: config key/value store -/

theorem find?_key_filter_ne (c : List (String × String)) (k k' : String)
    (h : k ≠ k') :
    (c.filter (fun kv => kv.1 ≠ k')).find? (fun kv => kv.1 == k) =
      c.find? (fun kv => kv.1 == k) := by
  induction c with
  | nil => rfl
  | cons a c ih =>
    rw [List.filter_cons]
    by_cases hk' : a.1 = k'
    · have hak : ¬ (a.1 = k) := fun he => h (he ▸ hk')
      rw [if_neg (by simpa using hk')]
      rw [ih, List.find?_cons_of_neg _ (by simpa using hak)]
    · rw [if_pos (by simpa using hk')]
      by_cases hak : a.1 = k
      · rw [List.find?_cons_of_pos _ (by simpa using hak),
          List.find?_cons_of_pos _ (by simpa using hak)]
      · rw [List.find?_cons_of_neg _ (by simpa using hak),
          List.find?_cons_of_neg _ (by simpa using hak), ih]

theorem get_config_set_same (s : DbState) (k v : String) :
    Database.get_config (Database.set_config s k v) k = some v := by
  unfold Database.get_config Database.set_config
  rw [List.find?_cons_of_pos _ (by simp)]
  rfl

theorem get_config_set_other (s : DbState) (k k' v : String) (h : k ≠ k') :
    Database.get_config (Database.set_config s k' v) k =
      Database.get_config s k := by
  unfold Database.get_config Database.set_config
  rw [List.find?_cons_of_neg _ (by simpa using (Ne.symm h)),
    find?_key_filter_ne s.config k k' h]

theorem get_config_set_opt_other (s : DbState) (key k : String)
    (o : Option String) (h : k ≠ key) :
    Database.get_config (Database.set_config_opt s key o) k =
      Database.get_config s k := by
  cases o with
  | none => rfl
  | some v => exact get_config_set_other s k key v h

theorem get_config_set_opt_some (s : DbState) (key v : String) :
    Database.get_config (Database.set_config_opt s key (some v)) key = some v :=
  get_config_set_same s key v

theorem get_config_set_opt_none (s : DbState) (key : String) :
    Database.get_config (Database.set_config_opt s key none) key =
      Database.get_config s key := rfl

/-! ### Helper lemmas: decimal round-trip (`u64::to_string` / `parse`) -/

theorem charDigit_ofNat_digit (d : Nat) (hd : d < 10) :
    charDigit (Char.ofNat (48 + d)) = true ∧
      (Char.ofNat (48 + d)).toNat = 48 + d := by
  interval_cases d <;> exact ⟨by decide, by decide⟩

theorem foldl_reverse_ofDigits (l : List Nat) (a : Nat) :
    l.reverse.foldl (fun acc d => 10 * acc + d) a =
      a * 10 ^ l.length + Nat.ofDigits 10 l := by
  induction l generalizing a with
  | nil => simp
  | cons d l ih =>
    simp only [List.reverse_cons, List.foldl_append, List.foldl_cons,
      List.foldl_nil, ih, Nat.ofDigits_cons, List.length_cons]
    ring

theorem parseU64_natToString (n : Nat) (h : n < 2 ^ 64) :
    parseU64 (natToString n) = some n := by
  by_cases h0 : n = 0
  · subst h0; decide
  · have hdig : ∀ d ∈ Nat.digits 10 n, d < 10 := fun d hd =>
      Nat.digits_lt_base (by norm_num) hd
    unfold natToString
    rw [if_neg h0]
    unfold parseU64
    have hdata : (String.mk (((Nat.digits 10 n).reverse).map
        (fun d => Char.ofNat (48 + d)))).data =
        ((Nat.digits 10 n).reverse).map (fun d => Char.ofNat (48 + d)) := rfl
    rw [hdata]
    have hne : ((Nat.digits 10 n).reverse).map
        (fun d => Char.ofNat (48 + d)) ≠ [] := by
      simp [Nat.digits_ne_nil_iff_ne_zero.mpr h0]
    have hall : (((Nat.digits 10 n).reverse).map
        (fun d => Char.ofNat (48 + d))).all charDigit = true := by
      rw [List.all_eq_true]
      intro c hc
      rcases List.mem_map.mp hc with ⟨d, hdm, rfl⟩
      exact (charDigit_ofNat_digit d (hdig d (List.mem_reverse.mp hdm))).1
    have hfold : (((Nat.digits 10 n).reverse).map
        (fun d => Char.ofNat (48 + d))).foldl
          (fun acc c => 10 * acc + (c.toNat - 48)) 0 = n := by
      rw [List.foldl_map]
      have hext : ((Nat.digits 10 n).reverse).foldl
          (fun acc d => 10 * acc + ((Char.ofNat (48 + d)).toNat - 48)) 0 =
          ((Nat.digits 10 n).reverse).foldl (fun acc d => 10 * acc + d) 0 := by
        apply List.foldl_ext
        intro a d hdm
        rw [(charDigit_ofNat_digit d (hdig d (List.mem_reverse.mp hdm))).2]
        omega
      rw [hext, foldl_reverse_ofDigits, Nat.ofDigits_digits]
      simp
    rw [if_pos ⟨hne, hall⟩, hfold, if_pos h]

theorem parseU64_lt (s : String) (m : Nat) (h : parseU64 s = some m) :
    m < 2 ^ 64 := by
  unfold parseU64 at h
  split at h
  · split at h
    · rename_i hv
      cases h
      exact hv
    · exact absurd h (by simp)
  · exact absurd h (by simp)

theorem load_config_poll_lt (s : DbState) :
    (Database.load_config s).poll_interval_secs < 2 ^ 64 := by
  unfold Database.load_config
  cases hg : Database.get_config s "poll_interval_secs" with
  | none => norm_num
  | some v =>
    cases hp : parseU64 v with
    | none => simp [hp]
    | some m => simpa [hp] using parseU64_lt v m hp

/-! ### Helper lemmas: what each config key holds after `save_config` -/

theorem save_config_get_yt_none (s : DbState) (c : Config)
    (h : c.youtube_api_key = none) :
    Database.get_config (Database.save_config s c) "youtube_api_key" =
      Database.get_config s "youtube_api_key" := by
  unfold Database.save_config
  rw [get_config_set_other _ _ _ _ (by decide),
    get_config_set_other _ _ _ _ (by decide),
    get_config_set_opt_other _ _ _ _ (by decide),
    get_config_set_opt_other _ _ _ _ (by decide), h,
    get_config_set_opt_none]

theorem save_config_get_yt_some (s : DbState) (c : Config) (v : String)
    (h : c.youtube_api_key = some v) :
    Database.get_config (Database.save_config s c) "youtube_api_key" =
      some v := by
  unfold Database.save_config
  rw [get_config_set_other _ _ _ _ (by decide),
    get_config_set_other _ _ _ _ (by decide),
    get_config_set_opt_other _ _ _ _ (by decide),
    get_config_set_opt_other _ _ _ _ (by decide), h,
    get_config_set_opt_some]

theorem save_config_get_tok_none (s : DbState) (c : Config)
    (h : c.telegram_bot_token = none) :
    Database.get_config (Database.save_config s c) "telegram_bot_token" =
      Database.get_config s "telegram_bot_token" := by
  unfold Database.save_config
  rw [get_config_set_other _ _ _ _ (by decide),
    get_config_set_other _ _ _ _ (by decide),
    get_config_set_opt_other _ _ _ _ (by decide), h,
    get_config_set_opt_none,
    get_config_set_opt_other _ _ _ _ (by decide)]

theorem save_config_get_tok_some (s : DbState) (c : Config) (v : String)
    (h : c.telegram_bot_token = some v) :
    Database.get_config (Database.save_config s c) "telegram_bot_token" =
      some v := by
  unfold Database.save_config
  rw [get_config_set_other _ _ _ _ (by decide),
    get_config_set_other _ _ _ _ (by decide),
    get_config_set_opt_other _ _ _ _ (by decide), h,
    get_config_set_opt_some]

theorem save_config_get_chat_none (s : DbState) (c : Config)
    (h : c.telegram_chat_id = none) :
    Database.get_config (Database.save_config s c) "telegram_chat_id" =
      Database.get_config s "telegram_chat_id" := by
  unfold Database.save_config
  rw [get_config_set_other _ _ _ _ (by decide),
    get_config_set_other _ _ _ _ (by decide), h,
    get_config_set_opt_none,
    get_config_set_opt_other _ _ _ _ (by decide),
    get_config_set_opt_other _ _ _ _ (by decide)]

theorem save_config_get_chat_some (s : DbState) (c : Config) (v : String)
    (h : c.telegram_chat_id = some v) :
    Database.get_config (Database.save_config s c) "telegram_chat_id" =
      some v := by
  unfold Database.save_config
  rw [get_config_set_other _ _ _ _ (by decide),
    get_config_set_other _ _ _ _ (by decide), h,
    get_config_set_opt_some]

theorem save_config_get_endpoint (s : DbState) (c : Config) :
    Database.get_config (Database.save_config s c) "ollama_endpoint" =
      some c.ollama_endpoint := by
  unfold Database.save_config
  rw [get_config_set_other _ _ _ _ (by decide), get_config_set_same]

theorem save_config_get_poll (s : DbState) (c : Config) :
    Database.get_config (Database.save_config s c) "poll_interval_secs" =
      some (natToString c.poll_interval_secs) := by
  unfold Database.save_config
  rw [get_config_set_same]

/-! ### Claim theorems: config and status decoding -/

/-- C10: decoding the canonical string encoding of any of the five
`JobStatus` variants returns the same variant:
`JobStatus.from_str (s.as_str) = s`, so statuses written by
`update_job_status`/`create_job` are read back unchanged by the dequeue. -/
theorem from_str_as_str_roundtrip (s : JobStatus) :
    JobStatus.from_str s.as_str = s := by
  cases s <;> decide

/-- C7: for every string that is not one of the five canonical status
encodings, `JobStatus.from_str` returns `Pending` and never errors: the
defensive fallback applies to all unknown status strings. -/
theorem from_str_unknown_pending (s : String) (h1 : s ≠ "pending")
    (h2 : s ≠ "generating") (h3 : s ≠ "rendering") (h4 : s ≠ "done")
    (h5 : s ≠ "failed") : JobStatus.from_str s = JobStatus.Pending := by
  unfold JobStatus.from_str
  rw [if_neg h1, if_neg h2, if_neg h3, if_neg h4, if_neg h5]

/-- Witness for C7 at the concrete unknown string `"bogus"`. -/
theorem from_str_unknown_pending_witness :
    JobStatus.from_str "bogus" = JobStatus.Pending :=
  from_str_unknown_pending "bogus" (by decide) (by decide) (by decide)
    (by decide) (by decide)

/-- C8: when a recognized config key is absent, `load_config` substitutes
the documented default (endpoint `"http://localhost:11434"`, poll interval
`300`); a stored poll-interval value that fails to parse also falls back to
`300` instead of failing; and a fresh store loads to exactly the defaults. -/
theorem load_config_defaults (s : DbState) :
    (Database.get_config s "ollama_endpoint" = none →
      (Database.load_config s).ollama_endpoint = "http://localhost:11434") ∧
    (Database.get_config s "poll_interval_secs" = none →
      (Database.load_config s).poll_interval_secs = 300) ∧
    (∀ v, Database.get_config s "poll_interval_secs" = some v →
      parseU64 v = none → (Database.load_config s).poll_interval_secs = 300) ∧
    Database.load_config DbState.fresh = Config.default := by
  refine ⟨?_, ?_, ?_, ?_⟩
  · intro h
    simp [Database.load_config, h]
  · intro h
    simp [Database.load_config, h]
  · intro v hv hp
    simp [Database.load_config, hv, hp]
  · rfl

/-- Witness for C8: fresh store loads to the defaults, and the concrete
unparseable stored value `"oops"` falls back to poll interval `300`. -/
theorem load_config_defaults_witness :
    (Database.load_config DbState.fresh).ollama_endpoint =
      "http://localhost:11434" ∧
    (Database.load_config badPollDb).poll_interval_secs = 300 ∧
    Database.load_config DbState.fresh = Config.default :=
  ⟨(load_config_defaults DbState.fresh).1 rfl,
   (load_config_defaults badPollDb).2.2.1 "oops" rfl (by decide),
   (load_config_defaults DbState.fresh).2.2.2⟩

/-- C9: `save_config` writes only present fields — an optional field that is
`None` is skipped, leaving the previously stored value for its key
untouched, while a `Some` field and the two non-optional fields (endpoint,
poll interval) are written. -/
theorem save_config_skips_absent (s : DbState) (c : Config) :
    (c.youtube_api_key = none →
      Database.get_config (Database.save_config s c) "youtube_api_key" =
        Database.get_config s "youtube_api_key") ∧
    (∀ v, c.youtube_api_key = some v →
      Database.get_config (Database.save_config s c) "youtube_api_key" =
        some v) ∧
    (c.telegram_bot_token = none →
      Database.get_config (Database.save_config s c) "telegram_bot_token" =
        Database.get_config s "telegram_bot_token") ∧
    (∀ v, c.telegram_bot_token = some v →
      Database.get_config (Database.save_config s c) "telegram_bot_token" =
        some v) ∧
    (c.telegram_chat_id = none →
      Database.get_config (Database.save_config s c) "telegram_chat_id" =
        Database.get_config s "telegram_chat_id") ∧
    (∀ v, c.telegram_chat_id = some v →
      Database.get_config (Database.save_config s c) "telegram_chat_id" =
        some v) ∧
    Database.get_config (Database.save_config s c) "ollama_endpoint" =
      some c.ollama_endpoint ∧
    Database.get_config (Database.save_config s c) "poll_interval_secs" =
      some (natToString c.poll_interval_secs) :=
  ⟨save_config_get_yt_none s c,
   fun v hv => save_config_get_yt_some s c v hv,
   save_config_get_tok_none s c,
   fun v hv => save_config_get_tok_some s c v hv,
   save_config_get_chat_none s c,
   fun v hv => save_config_get_chat_some s c v hv,
   save_config_get_endpoint s c,
   save_config_get_poll s c⟩

/-- Witness for C9 at a concrete config with a present API key and an
absent bot token, saved over a store that already holds a bot token. -/
theorem save_config_skips_absent_witness :
    Database.get_config
        (Database.save_config
          { DbState.fresh with config := [("telegram_bot_token", "OLD")] }
          sampleConfig) "youtube_api_key" = some "KEY" ∧
    Database.get_config
        (Database.save_config
          { DbState.fresh with config := [("telegram_bot_token", "OLD")] }
          sampleConfig) "telegram_bot_token" = some "OLD" ∧
    Database.get_config
        (Database.save_config
          { DbState.fresh with config := [("telegram_bot_token", "OLD")] }
          sampleConfig) "poll_interval_secs" = some (natToString 60) :=
  ⟨(save_config_skips_absent
      { DbState.fresh with config := [("telegram_bot_token", "OLD")] }
      sampleConfig).2.1 "KEY" rfl,
   ((save_config_skips_absent
      { DbState.fresh with config := [("telegram_bot_token", "OLD")] }
      sampleConfig).2.2.1 rfl).trans rfl,
   (save_config_skips_absent
      { DbState.fresh with config := [("telegram_bot_token", "OLD")] }
      sampleConfig).2.2.2.2.2.2.2⟩

/-- C6: saving an unmodified loaded config and reloading yields the same
values: `load_config (save_config s (load_config s)) = load_config s`. -/
theorem config_load_save_load (s : DbState) :
    Database.load_config (Database.save_config s (Database.load_config s)) =
      Database.load_config s := by
  have hpoll := load_config_poll_lt s
  have h_yt : Database.get_config
      (Database.save_config s (Database.load_config s)) "youtube_api_key" =
      (Database.load_config s).youtube_api_key := by
    cases hv : (Database.load_config s).youtube_api_key with
    | none =>
      rw [save_config_get_yt_none s _ hv]
      exact hv ▸ rfl
    | some v => rw [save_config_get_yt_some s _ v hv]
  have h_tok : Database.get_config
      (Database.save_config s (Database.load_config s)) "telegram_bot_token" =
      (Database.load_config s).telegram_bot_token := by
    cases hv : (Database.load_config s).telegram_bot_token with
    | none =>
      rw [save_config_get_tok_none s _ hv]
      exact hv ▸ rfl
    | some v => rw [save_config_get_tok_some s _ v hv]
  have h_chat : Database.get_config
      (Database.save_config s (Database.load_config s)) "telegram_chat_id" =
      (Database.load_config s).telegram_chat_id := by
    cases hv : (Database.load_config s).telegram_chat_id with
    | none =>
      rw [save_config_get_chat_none s _ hv]
      exact hv ▸ rfl
    | some v => rw [save_config_get_chat_some s _ v hv]
  have h_end := save_config_get_endpoint s (Database.load_config s)
  have h_pl := save_config_get_poll s (Database.load_config s)
  conv_lhs => rw [Database.load_config]
  rw [h_yt, h_tok, h_chat, h_end, h_pl]
  simp [parseU64_natToString _ hpoll]

/-! ### Helper lemmas: the dequeue selection -/

theorem foldl_chooseBetter_spec (l : List (JobRow × TrendRow))
    (b : JobRow × TrendRow) :
    ∃ r, l.foldl Database.chooseBetter (some b) = some r ∧
      (r = b ∨ r ∈ l) ∧ ¬ Database.jobBefore b.1 r.1 ∧
      ∀ y ∈ l, ¬ Database.jobBefore y.1 r.1 := by
  induction l generalizing b with
  | nil =>
    refine ⟨b, rfl, Or.inl rfl, ?_, by simp⟩
    intro hcon
    simp only [Database.jobBefore] at hcon
    omega
  | cons a l ih =>
    rw [List.foldl_cons]
    have hcb : Database.chooseBetter (some b) a =
        if Database.jobBefore a.1 b.1 then some a else some b := rfl
    by_cases hab : Database.jobBefore a.1 b.1
    · rw [hcb, if_pos hab]
      obtain ⟨r, hr, hmem, hbr, hall⟩ := ih a
      refine ⟨r, hr, ?_, ?_, ?_⟩
      · rcases hmem with rfl | hm
        · exact Or.inr (List.mem_cons_self _ _)
        · exact Or.inr (List.mem_cons_of_mem _ hm)
      · intro hcon
        simp only [Database.jobBefore] at hab hbr hcon
        omega
      · intro y hy
        rcases List.mem_cons.mp hy with rfl | hy'
        · exact hbr
        · exact hall y hy'
    · rw [hcb, if_neg hab]
      obtain ⟨r, hr, hmem, hbr, hall⟩ := ih b
      refine ⟨r, hr, ?_, hbr, ?_⟩
      · rcases hmem with rfl | hm
        · exact Or.inl rfl
        · exact Or.inr (List.mem_cons_of_mem _ hm)
      · intro y hy
        rcases List.mem_cons.mp hy with rfl | hy'
        · intro hcon
          simp only [Database.jobBefore] at hab hbr hcon
          omega
        · exact hall y hy'

theorem orderLimit1_none_iff (l : List (JobRow × TrendRow)) :
    Database.orderLimit1 l = none ↔ l = [] := by
  constructor
  · intro h
    cases l with
    | nil => rfl
    | cons x xs =>
      obtain ⟨r, hr, -, -, -⟩ := foldl_chooseBetter_spec xs x
      rw [Database.orderLimit1, List.foldl_cons] at h
      have hx : Database.chooseBetter none x = some x := rfl
      rw [hx, hr] at h
      cases h
  · intro h
    subst h
    rfl

theorem orderLimit1_spec (l : List (JobRow × TrendRow))
    (r : JobRow × TrendRow) (h : Database.orderLimit1 l = some r) :
    r ∈ l ∧ ∀ y ∈ l, ¬ Database.jobBefore y.1 r.1 := by
  cases l with
  | nil => cases h
  | cons x xs =>
    rw [Database.orderLimit1, List.foldl_cons] at h
    have hx : Database.chooseBetter none x = some x := rfl
    rw [hx] at h
    obtain ⟨r', hr', hmem, hxr, hall⟩ := foldl_chooseBetter_spec xs x
    rw [hr'] at h
    injection h with h
    subst h
    refine ⟨?_, ?_⟩
    · rcases hmem with rfl | hm
      · exact List.mem_cons_self _ _
      · exact List.mem_cons_of_mem _ hm
    · intro y hy
      rcases List.mem_cons.mp hy with rfl | hy'
      · exact hxr
      · exact hall y hy'

theorem mem_pendingJoined (s : DbState) (j : JobRow) (t : TrendRow) :
    (j, t) ∈ Database.pendingJoined s ↔
      j ∈ s.jobs ∧ j.status = "pending" ∧
        s.trends.find? (fun tr => tr.id == j.trend_id) = some t := by
  unfold Database.pendingJoined
  rw [List.mem_filterMap]
  constructor
  · rintro ⟨a, ha, hfa⟩
    rcases Option.map_eq_some'.mp hfa with ⟨t', hft', heq⟩
    injection heq with h1 h2
    subst h1
    subst h2
    have hmem := List.mem_filter.mp ha
    exact ⟨hmem.1, by simpa using hmem.2, hft'⟩
  · rintro ⟨hj, hp, hf⟩
    refine ⟨j, List.mem_filter.mpr ⟨hj, by simpa using hp⟩, ?_⟩
    rw [hf]
    rfl

theorem find?_trend_exists (s : DbState) (j : JobRow)
    (hFK : ∃ t ∈ s.trends, t.id = j.trend_id) :
    ∃ t, s.trends.find? (fun tr => tr.id == j.trend_id) = some t := by
  obtain ⟨t0, ht0, hid⟩ := hFK
  have hs : (s.trends.find? (fun tr => tr.id == j.trend_id)).isSome := by
    rw [List.find?_isSome]
    exact ⟨t0, ht0, by simpa using hid⟩
  exact Option.isSome_iff_exists.mp hs

/-! ### Claim theorems: the dequeue operation -/

/-- C1: over any FK-consistent store (every job's `trend_id` names a stored
trend, as the schema's `REFERENCES trends(id)` and the spec's data model
require), `get_next_pending_job` returns the absent value exactly when no
pending job exists; and any returned pair is a pending job that no other
pending job beats under `(priority DESC, created_at ASC)`, joined with the
trend whose `id` equals the job's `trend_id`. -/
theorem dequeue_next_pending_spec (s : DbState)
    (hFK : ∀ j ∈ s.jobs, ∃ t ∈ s.trends, t.id = j.trend_id) :
    ((Database.get_next_pending_job s).1 = none ↔
      ∀ j ∈ s.jobs, j.status ≠ "pending") ∧
    ∀ jb tr, (Database.get_next_pending_job s).1 = some (jb, tr) →
      (∃ r ∈ s.jobs, r.status = "pending" ∧ jb = Database.rowToJob r ∧
        ∀ r' ∈ s.jobs, r'.status = "pending" → ¬ Database.jobBefore r' r) ∧
      tr.id = some jb.trend_id ∧
      ∃ t ∈ s.trends, t.id = jb.trend_id ∧ tr = Database.rowToTrend t := by
  have hnone : (Database.get_next_pending_job s).1 = none ↔
      Database.pendingJoined s = [] := by
    unfold Database.get_next_pending_job
    rw [Option.map_eq_none']
    exact orderLimit1_none_iff _
  constructor
  · rw [hnone]
    constructor
    · intro hemp j hj hp
      obtain ⟨t, ht⟩ := find?_trend_exists s j (hFK j hj)
      have hmem : (j, t) ∈ Database.pendingJoined s :=
        (mem_pendingJoined s j t).mpr ⟨hj, hp, ht⟩
      rw [hemp] at hmem
      cases hmem
    · intro hnp
      unfold Database.pendingJoined
      have hfil : s.jobs.filter (fun j => j.status == "pending") = [] := by
        rw [List.filter_eq_nil_iff]
        intro j hj
        simpa using hnp j hj
      rw [hfil]
      rfl
  · intro jb tr hsome
    unfold Database.get_next_pending_job at hsome
    rcases Option.map_eq_some'.mp hsome with ⟨⟨r, t⟩, hol, heq⟩
    injection heq with h1 h2
    obtain ⟨hmem, hbest⟩ := orderLimit1_spec _ _ hol
    obtain ⟨hjmem, hjpend, hfind⟩ := (mem_pendingJoined s r t).mp hmem
    have htid : t.id = r.trend_id := by simpa using List.find?_some hfind
    refine ⟨⟨r, hjmem, hjpend, h1.symm, ?_⟩, ?_, ?_⟩
    · intro r' hr' hp'
      obtain ⟨t', ht'⟩ := find?_trend_exists s r' (hFK r' hr')
      exact hbest (r', t') ((mem_pendingJoined s r' t').mpr ⟨hr', hp', ht'⟩)
    · rw [← h2, ← h1]
      show some t.id = some r.trend_id
      rw [htid]
    · refine ⟨t, List.mem_of_find?_eq_some hfind, ?_, h2.symm⟩
      rw [← h1]
      exact htid

/-- Witness for C1 on `sampleDb`: the dequeue picks the priority-2 pending
job (`sampleJobRow2`) joined with its trend. -/
theorem dequeue_next_pending_spec_witness :
    (∃ r ∈ sampleDb.jobs, r.status = "pending" ∧
        Database.rowToJob sampleJobRow2 = Database.rowToJob r ∧
        ∀ r' ∈ sampleDb.jobs, r'.status = "pending" →
          ¬ Database.jobBefore r' r) ∧
    (Database.rowToTrend sampleTrendRow).id =
      some (Database.rowToJob sampleJobRow2).trend_id ∧
    ∃ t ∈ sampleDb.trends,
      t.id = (Database.rowToJob sampleJobRow2).trend_id ∧
      Database.rowToTrend sampleTrendRow = Database.rowToTrend t :=
  (dequeue_next_pending_spec sampleDb (by decide)).2
    (Database.rowToJob sampleJobRow2) (Database.rowToTrend sampleTrendRow)
    (by decide)

/-- C5: `get_next_pending_job` is a pure read — it leaves the store
unchanged, any job it returns still has status `pending` in the store after
the call (nothing marks it taken), and an immediately repeated call returns
the same job. -/
theorem dequeue_is_pure_read (s : DbState) (jb : Job) (tr : Trend)
    (h : (Database.get_next_pending_job s).1 = some (jb, tr)) :
    (∀ s' : DbState, (Database.get_next_pending_job s').2 = s') ∧
    jb.status = JobStatus.Pending ∧
    (∃ r ∈ (Database.get_next_pending_job s).2.jobs,
      jb.id = some r.id ∧ r.status = "pending") ∧
    (Database.get_next_pending_job
      (Database.get_next_pending_job s).2).1 = some (jb, tr) := by
  have h' := h
  unfold Database.get_next_pending_job at h'
  rcases Option.map_eq_some'.mp h' with ⟨⟨r, t⟩, hol, heq⟩
  injection heq with h1 h2
  obtain ⟨hmem, -⟩ := orderLimit1_spec _ _ hol
  obtain ⟨hjmem, hjpend, -⟩ := (mem_pendingJoined s r t).mp hmem
  refine ⟨fun s' => rfl, ?_, ⟨r, hjmem, ?_, hjpend⟩, h⟩
  · rw [← h1]
    show JobStatus.from_str r.status = JobStatus.Pending
    rw [hjpend]
    decide
  · rw [← h1]
    rfl

/-- Witness for C5 on `sampleDb`. -/
theorem dequeue_is_pure_read_witness :
    (∀ s' : DbState, (Database.get_next_pending_job s').2 = s') ∧
    (Database.rowToJob sampleJobRow2).status = JobStatus.Pending ∧
    (∃ r ∈ (Database.get_next_pending_job sampleDb).2.jobs,
      (Database.rowToJob sampleJobRow2).id = some r.id ∧
      r.status = "pending") ∧
    (Database.get_next_pending_job
      (Database.get_next_pending_job sampleDb).2).1 =
      some (Database.rowToJob sampleJobRow2,
        Database.rowToTrend sampleTrendRow) :=
  dequeue_is_pure_read sampleDb (Database.rowToJob sampleJobRow2)
    (Database.rowToTrend sampleTrendRow) (by decide)

/-! ### Helper lemmas: trend insertion and job updates -/

theorem insert_trend_exists_noop (s : DbState) (t : Trend)
    (h : ∃ r ∈ s.trends, r.video_id = t.video_id) :
    Database.insert_trend s t = (s.last_insert_rowid, s) := by
  unfold Database.insert_trend
  rw [if_pos]
  rw [List.any_eq_true]
  obtain ⟨r, hr, hv⟩ := h
  exact ⟨r, hr, by simpa using hv⟩

theorem insert_trend_fresh (s : DbState) (t : Trend)
    (h : ∀ r ∈ s.trends, r.video_id ≠ t.video_id) :
    Database.insert_trend s t =
      (s.next_trend_id,
       { s with trends := s.trends ++ [Database.trendRowOf s.next_trend_id t],
                next_trend_id := s.next_trend_id + 1,
                last_insert_rowid := s.next_trend_id }) := by
  unfold Database.insert_trend
  rw [if_neg]
  rw [Bool.not_eq_true, List.any_eq_false]
  intro r hr
  simpa using h r hr

theorem mem_map_update_ne (l : List JobRow) (r : JobRow) (hr : r ∈ l)
    (jid : Int) (g : JobRow → JobRow) (hne : r.id ≠ jid) :
    r ∈ l.map (fun x => if x.id == jid then g x else x) := by
  have hfix : (fun x => if x.id == jid then g x else x) r = r := by
    simp only
    rw [if_neg (by simpa using hne)]
  exact hfix ▸ List.mem_map_of_mem _ hr

theorem mem_map_update_eq (l : List JobRow) (r : JobRow) (hr : r ∈ l)
    (jid : Int) (g : JobRow → JobRow) (heq : r.id = jid) :
    g r ∈ l.map (fun x => if x.id == jid then g x else x) := by
  have hfix : (fun x => if x.id == jid then g x else x) r = g r := by
    simp only
    rw [if_pos (by simpa using heq)]
  exact hfix ▸ List.mem_map_of_mem _ hr

/-! ### Claim theorems: trend insertion and job updates -/

/-- C2: inserting a trend whose `video_id` duplicates an already-stored
trend is a silent no-op — the second insertion returns without error and
leaves the store exactly as it was, exactly one row with that `video_id`
exists, and that row keeps the first insertion's fields (first-write-wins:
its title is the first title). -/
theorem insert_trend_first_write_wins (s : DbState) (t t' : Trend)
    (hsame : t'.video_id = t.video_id)
    (hfresh : ∀ r ∈ s.trends, r.video_id ≠ t.video_id) :
    (Database.insert_trend (Database.insert_trend s t).2 t').2 =
      (Database.insert_trend s t).2 ∧
    ((Database.insert_trend (Database.insert_trend s t).2 t').2).trends.countP
      (fun r => r.video_id == t.video_id) = 1 ∧
    ∀ r ∈ ((Database.insert_trend (Database.insert_trend s t).2 t').2).trends,
      r.video_id = t.video_id → r.title = t.title := by
  have h1 := insert_trend_fresh s t hfresh
  have hrow : (Database.trendRowOf s.next_trend_id t).video_id = t.video_id :=
    rfl
  have h2 : Database.insert_trend (Database.insert_trend s t).2 t' =
      ((Database.insert_trend s t).2.last_insert_rowid,
       (Database.insert_trend s t).2) := by
    apply insert_trend_exists_noop
    rw [h1]
    exact ⟨Database.trendRowOf s.next_trend_id t,
      by simp, by rw [hrow, hsame]⟩
  rw [h2]
  refine ⟨rfl, ?_, ?_⟩
  · rw [h1]
    show (s.trends ++ [Database.trendRowOf s.next_trend_id t]).countP
      (fun r => r.video_id == t.video_id) = 1
    rw [List.countP_append]
    have hz : s.trends.countP (fun r => r.video_id == t.video_id) = 0 := by
      rw [List.countP_eq_zero]
      intro r hr
      simpa using hfresh r hr
    rw [hz]
    simp [List.countP_cons, hrow]
  · rw [h1]
    intro r hrmem hrvid
    rcases List.mem_append.mp hrmem with hin | hin
    · exact absurd hrvid (hfresh r hin)
    · rcases List.mem_singleton.mp hin with rfl
      rfl

/-- Witness for C2: inserting `sampleTrend` into a fresh store and then
`sampleTrend2` (same `video_id`, different title). -/
theorem insert_trend_first_write_wins_witness :
    (Database.insert_trend
        (Database.insert_trend DbState.fresh sampleTrend).2 sampleTrend2).2 =
      (Database.insert_trend DbState.fresh sampleTrend).2 ∧
    ((Database.insert_trend
        (Database.insert_trend DbState.fresh sampleTrend).2
        sampleTrend2).2).trends.countP
      (fun r => r.video_id == sampleTrend.video_id) = 1 ∧
    ∀ r ∈ ((Database.insert_trend
        (Database.insert_trend DbState.fresh sampleTrend).2
        sampleTrend2).2).trends,
      r.video_id = sampleTrend.video_id → r.title = sampleTrend.title :=
  insert_trend_first_write_wins DbState.fresh sampleTrend sampleTrend2
    (by decide) (by decide)

/-- C3: `update_job_status` applies field-set rules keyed on the target
state — entering `Generating`/`Rendering` sets the status text and stamps
`started_at` to now, leaving every other column unchanged; entering
`Done`/`Failed` sets the status text, stamps `finished_at` to now and
stores the given (possibly absent) error message; the remaining target
(`Pending`) touches only the status column.  Rows with a different id are
untouched. -/
theorem update_job_status_fields (s : DbState) (jid : Int) (st : JobStatus)
    (em : Option String) (now : Nat) (r : JobRow) (hr : r ∈ s.jobs) :
    (r.id ≠ jid → r ∈ (Database.update_job_status s jid st em now).jobs) ∧
    (r.id = jid →
      ((st = .Generating ∨ st = .Rendering) →
        { r with status := st.as_str, started_at := some now } ∈
          (Database.update_job_status s jid st em now).jobs) ∧
      ((st = .Done ∨ st = .Failed) →
        { r with status := st.as_str, finished_at := some now,
                 error_msg := em } ∈
          (Database.update_job_status s jid st em now).jobs) ∧
      (st = .Pending →
        { r with status := st.as_str } ∈
          (Database.update_job_status s jid st em now).jobs)) := by
  cases st with
  | Generating =>
    refine ⟨fun hne => mem_map_update_ne s.jobs r hr jid _ hne, fun hid =>
      ⟨fun _ => mem_map_update_eq s.jobs r hr jid _ hid,
       fun hc => by rcases hc with hc | hc <;> exact absurd hc (by decide),
       fun hc => absurd hc (by decide)⟩⟩
  | Rendering =>
    refine ⟨fun hne => mem_map_update_ne s.jobs r hr jid _ hne, fun hid =>
      ⟨fun _ => mem_map_update_eq s.jobs r hr jid _ hid,
       fun hc => by rcases hc with hc | hc <;> exact absurd hc (by decide),
       fun hc => absurd hc (by decide)⟩⟩
  | Done =>
    refine ⟨fun hne => mem_map_update_ne s.jobs r hr jid _ hne, fun hid =>
      ⟨fun hc => by rcases hc with hc | hc <;> exact absurd hc (by decide),
       fun _ => mem_map_update_eq s.jobs r hr jid _ hid,
       fun hc => absurd hc (by decide)⟩⟩
  | Failed =>
    refine ⟨fun hne => mem_map_update_ne s.jobs r hr jid _ hne, fun hid =>
      ⟨fun hc => by rcases hc with hc | hc <;> exact absurd hc (by decide),
       fun _ => mem_map_update_eq s.jobs r hr jid _ hid,
       fun hc => absurd hc (by decide)⟩⟩
  | Pending =>
    refine ⟨fun hne => mem_map_update_ne s.jobs r hr jid _ hne, fun hid =>
      ⟨fun hc => by rcases hc with hc | hc <;> exact absurd hc (by decide),
       fun hc => by rcases hc with hc | hc <;> exact absurd hc (by decide),
       fun _ => mem_map_update_eq s.jobs r hr jid _ hid⟩⟩

/-- Witness for C3: marking job 1 of `sampleDb` as `Done` with an error
message stamps `finished_at` and stores the message, keeping `started_at`
and `created_at`. -/
theorem update_job_status_fields_witness :
    { sampleJobRow with status := JobStatus.as_str .Done,
                        finished_at := some 7,
                        error_msg := some "boom" } ∈
      (Database.update_job_status sampleDb 1 .Done (some "boom") 7).jobs :=
  ((update_job_status_fields sampleDb 1 .Done (some "boom") 7 sampleJobRow
    (by decide)).2 (by decide)).2.1 (Or.inl rfl)

/-- C4: `update_job_status` performs no transition validation: for every
job row (whatever its current status, terminal included) and every target
status, the operation succeeds (it is total) and the row ends up with the
target status. -/
theorem update_job_status_no_validation (s : DbState) (jid : Int)
    (st : JobStatus) (em : Option String) (now : Nat) (r : JobRow)
    (hr : r ∈ s.jobs) (hid : r.id = jid) :
    ∃ r' ∈ (Database.update_job_status s jid st em now).jobs,
      r'.id = jid ∧ r'.status = st.as_str := by
  cases st
  case Generating =>
    exact ⟨_, mem_map_update_eq s.jobs r hr jid _ hid, hid, rfl⟩
  case Rendering =>
    exact ⟨_, mem_map_update_eq s.jobs r hr jid _ hid, hid, rfl⟩
  case Done =>
    exact ⟨_, mem_map_update_eq s.jobs r hr jid _ hid, hid, rfl⟩
  case Failed =>
    exact ⟨_, mem_map_update_eq s.jobs r hr jid _ hid, hid, rfl⟩
  case Pending =>
    exact ⟨_, mem_map_update_eq s.jobs r hr jid _ hid, hid, rfl⟩

/-- Witness for C4: the terminal-state job 3 (`done`) of `sampleDb` is
moved back to `pending` without any rejection. -/
theorem update_job_status_no_validation_witness :
    ∃ r' ∈ (Database.update_job_status sampleDb 3 .Pending none 99).jobs,
      r'.id = 3 ∧ r'.status = JobStatus.as_str .Pending :=
  update_job_status_no_validation sampleDb 3 .Pending none 99 sampleDoneRow
    (by decide) (by decide)
